import Mathlib

/-!
Verification development for the `rustpython-ndarray` repository.

The repository implements an N-dimensional numeric array with deferred
(lazy) slicing for the RustPython interpreter.  The core type is
`SlicedArcArray<T>` in `src/generic_pyndarray.rs`: a handle pairing an
`Arc<RwLock<ndarray::ArrayD<T>>>` (shared storage) with an accumulated
chain of `SliceInfo` groups, composed only when the data is read or
written.  `src/lib.rs` additionally holds a `PyNdArray<T>` draft with a
direct (chain-ignoring) `getitem`/`setitem` and the `AsMapping` host
bindings.  `src/generic_array.rs` holds the dtype-erased construction
path (`GenericArrayData::from_array`).

This file gives a shallow embedding of those components:

* storage is an arena `World α := List (ArrayD α)`; a handle carries the
  arena index of its storage plus its slice chain, mirroring
  `Arc` identity (two handles alias iff their indices coincide, which is
  exactly `Arc::ptr_eq`);
* `ndarray` views are strided views `⟨shape, strides, offset⟩` over the
  flat data of the base array; `slice_move` is modelled after
  `ndarray`'s `to_abs_slice`/`do_slice`/`collapse_axis` (panics become
  `none`);
* fallible operations return `Option (Except PyErr _)`: `none` models a
  Rust panic, `Except.error` a Python-level exception raised through the
  `vm`, `Except.ok` success;
* element types are an arbitrary `α` — every modelled operation only
  moves elements, so nothing depends on float semantics.
-/

namespace RustPythonNdarray

/-- `ndarray::SliceInfoElem`: one dimension's selector.  `index i`
collapses the axis, `slice start step stop` narrows it (`stop = none`
means "until the storage bound"), `newAxis` inserts a length-1 axis. -/
inductive SliceInfoElem where
  | index (i : Int)
  | slice (start : Int) (step : Int) (stop : Option Int)
  | newAxis
deriving Repr, DecidableEq

/-- `DynamicSlice = SliceInfo<Vec<SliceInfoElem>, IxDyn, IxDyn>`: one
slice-descriptor group. -/
abbrev DynamicSlice := List SliceInfoElem

/-- `ndarray::ArrayD<T>` with standard (row-major) layout: a shape plus
the flat element data, as produced by `from_shape_vec`. -/
structure ArrayD (α : Type) where
  shape : List Nat
  data : List α
deriving Repr, DecidableEq

/-- A borrowed `ndarray` view of a base array: per-axis extents,
per-axis strides (in elements, possibly negative) and the offset of the
view's first element inside the base data. -/
structure View where
  shape : List Nat
  strides : List Int
  offset : Int
deriving Repr, DecidableEq

/-- The storage arena: one entry per `Arc<RwLock<ArrayD<T>>>` ever
created.  Buffers are never resized, only mutated elementwise. -/
abbrev World (α : Type) := List (ArrayD α)

/-- An array handle (`SlicedArcArray<T>` and likewise `PyNdArray<T>`):
the arena index of its shared storage plus the deferred slice chain. -/
structure Handle where
  storage : Nat
  slices : List DynamicSlice
deriving Repr, DecidableEq

/-- Row-major (C-order) strides for a shape, as `ndarray` assigns to a
freshly constructed owned array. -/
def rowMajorStrides : List Nat → List Int
  | [] => []
  | _ :: rest => ((rest.prod : Nat) : Int) :: rowMajorStrides rest

/-- Inner product of a multi-index with a stride vector. -/
def dotStrides : List Nat → List Int → Int
  | [], _ => 0
  | _, [] => 0
  | i :: ix, s :: st => (i : Int) * s + dotStrides ix st

/-- The full-extent view of a base array (what `arr.view()` /
`arr.view_mut()` return before the chain is folded on). -/
def defaultView (a : ArrayD α) : View :=
  ⟨a.shape, rowMajorStrides a.shape, 0⟩

/-- `SliceInfo::in_ndim`: number of descriptors that consume an input
axis (everything except `NewAxis`). -/
def inNdim : List SliceInfoElem → Nat
  | [] => 0
  | .newAxis :: rest => inNdim rest
  | _ :: rest => inNdim rest + 1

/-- `ndarray`'s `abs_index`: negative selectors count from the end of
the axis.  (The usize wrap-around of a too-negative value is modelled by
the `0 ≤ _` guards at each use site, which fail exactly when the
wrapped value would trip the bounds assert.) -/
def absIndex (n : Nat) (i : Int) : Int :=
  if i < 0 then i + n else i

/-- Apply one descriptor group to (shape, strides), producing the new
shape, new strides and the offset delta — the per-axis semantics of
`ndarray`'s `slice_move` (`collapse_axis` for `Index`,
`to_abs_slice`/`do_slice` for `Slice`, axis insertion for `NewAxis`).
`none` models the panics of the out-of-bounds and zero-stride asserts. -/
def applyElems : List SliceInfoElem → List Nat → List Int →
    Option (List Nat × List Int × Int)
  | [], [], [] => some ([], [], 0)
  | .newAxis :: rest, sh, st => do
      let (sh', st', off) ← applyElems rest sh st
      some (1 :: sh', 0 :: st', off)
  | .index i :: rest, n :: sh, s :: st =>
      let j := absIndex n i
      if 0 ≤ j ∧ j < (n : Int) then do
        let (sh', st', off) ← applyElems rest sh st
        some (sh', st', off + j * s)
      else none
  | .slice a stp b :: rest, n :: sh, s :: st =>
      let s0 := absIndex n a
      let e0 := absIndex n (b.getD n)
      let e1 := max e0 s0
      if 0 ≤ s0 ∧ s0 ≤ (n : Int) ∧ 0 ≤ e0 ∧ e1 ≤ (n : Int) ∧ stp ≠ 0 then
        let m := (e1 - s0).toNat
        let newLen := if m = 0 then 0 else (m - 1) / stp.natAbs + 1
        let offHere : Int :=
          if m = 0 then 0 else if stp < 0 then (e1 - 1) * s else s0 * s
        do
          let (sh', st', off) ← applyElems rest sh st
          some (newLen :: sh', (s * stp) :: st', off + offHere)
      else none
  | _, _, _ => none

/-- `arr_slice.slice_move(slice)`: checks `in_ndim` against the view's
dimensionality (the `assert_eq` in `slice_move`), then folds the group
onto the view. -/
def slice_move (v : View) (elems : DynamicSlice) : Option View :=
  if inNdim elems = v.shape.length then
    (applyElems elems v.shape v.strides).map
      (fun r => ⟨r.1, r.2.1, v.offset + r.2.2⟩)
  else none

/-- Fold a whole slice chain onto the full-extent view of a base array
(the loop body shared by `SlicedArcArray::read` and `::write`). -/
def composeChain (a : ArrayD α) (slices : List DynamicSlice) : Option View :=
  slices.foldlM slice_move (defaultView a)

/-- Compose a handle's chain against its storage in a given world. -/
def composedView (w : World α) (h : Handle) : Option View :=
  (w.get? h.storage).bind fun a => composeChain a h.slices

/-- Read the view element at a multi-index: offset plus the strided
inner product, looked up in the base data. -/
def viewGet (a : ArrayD α) (v : View) (ix : List Nat) : Option α :=
  let pos := v.offset + dotStrides ix v.strides
  if 0 ≤ pos then a.data.get? pos.toNat else none

/-- All multi-indices of a shape in row-major order. -/
def enumIndices : List Nat → List (List Nat)
  | [] => [[]]
  | n :: rest => (List.range n).flatMap fun i => (enumIndices rest).map (i :: ·)

/-- `sliced.to_owned()`: materialize a view into a fresh owned array. -/
def materializeView (a : ArrayD α) (v : View) : Option (ArrayD α) :=
  ((enumIndices v.shape).mapM (viewGet a v)).map fun elems => ⟨v.shape, elems⟩

/-- `self.read(|s| s.to_owned())`: compose the chain under the read
lock and materialize the result. -/
def read_to_owned (w : World α) (h : Handle) : Option (ArrayD α) := do
  let a ← w.get? h.storage
  let v ← composeChain a h.slices
  materializeView a v

/-- Write one element through a view into the flat buffer. -/
def viewSet (buf : List α) (v : View) (ix : List Nat) (x : α) :
    Option (List α) :=
  let pos := v.offset + dotStrides ix v.strides
  if 0 ≤ pos ∧ pos.toNat < buf.length then some (buf.set pos.toNat x)
  else none

/-- `sliced.fill(value)`: write the scalar at every position of the
view. -/
def fillView (a : ArrayD α) (v : View) (x : α) : Option (ArrayD α) :=
  ((enumIndices v.shape).foldlM (fun buf ix => viewSet buf v ix x) a.data).map
    fun buf => { a with data := buf }

/-- `dst.assign(&src)` for equal shapes: copy each element of the
source view into the corresponding position of the destination view.
The source base array is fixed throughout (either a different storage,
or the materialized temporary in the aliased branch). -/
def assignViews (dstBuf : List α) (vDst : View) (srcA : ArrayD α)
    (vSrc : View) : Option (List α) :=
  (enumIndices vDst.shape).foldlM
    (fun buf ix => (viewGet srcA vSrc ix).bind fun x => viewSet buf vDst ix x)
    dstBuf

/-- The error payload of the bounds check invoked by
`SlicedArcArray::append_slice`.  Modelled from the spec: the
`bounds_check` method called at `generic_pyndarray.rs:59` is not among
the repository's source files; §4.3 of the spec specifies its two
failure modes — a group whose descriptor count differs from the view's
dimensionality (`DimensionMismatch` carrying expected and actual
counts) and a range or index exceeding an axis's extent
(`IndexOutOfBounds` naming the axis, requested bound and extent). -/
inductive BoundsErr where
  | indexOutOfBounds (axis : Nat) (requested : Int) (extent : Nat)
  | dimensionMismatch (expected actual : Nat)
deriving Repr, DecidableEq

/-- The Python-level exceptions raised by the modelled code paths, one
constructor per `vm.new_*_error` construction site, keeping the data
interpolated into the source's format string:

* `indexError e` — `append_slice`'s
  `vm.new_index_error(format!("Slice out of bounds; {e}"))`;
* `assignShapeMismatch src dst` — `assign_fn`'s
  `"Attempted to assign shape {src} to shape {dst}"` runtime error;
* `incompatibleShape` — the runtime error wrapping `ndarray`'s
  `from_shape_vec` shape error in `GenericArrayData::from_array`;
* `invalidIndex` — `PyNdArray::getitem`/`setitem`'s
  `"Invalid index"` runtime error (lib.rs);
* `lenUnsupported` — the `"Arrays do not support len()"` runtime error
  of the `AsMapping` `length` binding (lib.rs). -/
inductive PyErr where
  | indexError (e : BoundsErr)
  | assignShapeMismatch (src dst : List Nat)
  | incompatibleShape
  | invalidIndex
  | lenUnsupported
deriving Repr, DecidableEq

/-- Per-axis walk of the bounds check.  Modelled from the spec:
"Each `Range` is validated against the view's current per-axis extent
before slicing; an out-of-bounds range fails with an `IndexOutOfBounds`
error naming the axis, requested bound, and extent" (§4.3), with
indices treated analogously and negative selectors resolved from the
end of the axis as everywhere else in the code.  `NewAxis` consumes no
input axis. -/
def boundsCheckElems : List SliceInfoElem → List Nat → Nat →
    Except BoundsErr Unit
  | [], [], _ => .ok ()
  | .newAxis :: rest, sh, ax => boundsCheckElems rest sh ax
  | .index i :: rest, n :: sh, ax =>
      let j := absIndex n i
      if 0 ≤ j ∧ j < (n : Int) then boundsCheckElems rest sh (ax + 1)
      else .error (.indexOutOfBounds ax i n)
  | .slice a _ b :: rest, n :: sh, ax =>
      let s0 := absIndex n a
      let e0 := absIndex n (b.getD n)
      if 0 ≤ s0 ∧ s0 ≤ (n : Int) then
        if 0 ≤ e0 ∧ e0 ≤ (n : Int) then boundsCheckElems rest sh (ax + 1)
        else .error (.indexOutOfBounds ax (b.getD n) n)
      else .error (.indexOutOfBounds ax a n)
  | elems, sh, _ => .error (.dimensionMismatch sh.length (inNdim elems))

/-- `sliced.bounds_check(&slice)`.  Modelled from the spec (the method
itself is missing from the source tree; see `BoundsErr`): the group's
descriptor count must equal the view's dimensionality, and every index
and range must lie within the per-axis extents. -/
def bounds_check (shape : List Nat) (elems : DynamicSlice) :
    Except BoundsErr Unit :=
  if inNdim elems = shape.length then boundsCheckElems elems shape 0
  else .error (.dimensionMismatch shape.length (inNdim elems))

/-- `SlicedArcArray::append_slice` (generic_pyndarray.rs:58-70): bounds
check the new group against the current composed view under a read
lock; on failure raise the index error; on success return a new handle
with the same storage and the group pushed onto a copy of the chain. -/
def append_slice (w : World α) (h : Handle) (s : DynamicSlice) :
    Option (Except PyErr Handle) :=
  match composedView w h with
  | none => none
  | some v =>
      match bounds_check v.shape s with
      | .error e => some (.error (.indexError e))
      | .ok _ => some (.ok ⟨h.storage, h.slices ++ [s]⟩)

/-- `SlicedArcArray::getitem` (generic_pyndarray.rs:102-116): append
the parsed group, then read the composed view; a zero-dimensional
result collapses eagerly to the single scalar (`get([]).unwrap()`),
anything else is returned as the new handle. -/
def getitem (w : World α) (h : Handle) (s : DynamicSlice) :
    Option (Except PyErr (α ⊕ Handle)) :=
  match append_slice w h s with
  | none => none
  | some (.error e) => some (.error e)
  | some (.ok h') =>
      match w.get? h'.storage with
      | none => none
      | some a =>
          match composeChain a h'.slices with
          | none => none
          | some v =>
              if v.shape.length = 0 then
                match viewGet a v [] with
                | none => none
                | some x => some (.ok (Sum.inl x))
              else some (.ok (Sum.inr h'))

/-- `SlicedArcArray::fill` (generic_pyndarray.rs:124-131): append the
group, then under the write lock fill the composed view with the
scalar. -/
def fill (w : World α) (h : Handle) (s : DynamicSlice) (x : α) :
    Option (Except PyErr (World α)) :=
  match append_slice w h s with
  | none => none
  | some (.error e) => some (.error e)
  | some (.ok h') =>
      match w.get? h'.storage with
      | none => none
      | some a =>
          match composeChain a h'.slices with
          | none => none
          | some v =>
              match fillView a v x with
              | none => none
              | some a' => some (.ok (w.set h'.storage a'))

/-- `SlicedArcArray::assign_fn` (generic_pyndarray.rs:144-184) with
`f = dst.assign(&src)` (plain elementwise assignment, the `set_item`
array branch).  If source and destination share storage
(`Arc::ptr_eq`), the source's composed view is materialized into an
independent owned temporary *before* the destination chain is appended
and the write lock is taken; shapes are compared and the runtime error
carries source then destination shape.  Otherwise the destination is
write-locked, the source read-locked, shapes compared, and the copy
reads live through the source's composed view. -/
def assign_fn (w : World α) (h : Handle) (s : DynamicSlice)
    (other : Handle) : Option (Except PyErr (World α)) :=
  if h.storage = other.storage then
    match read_to_owned w other with
    | none => none
    | some copied =>
        match append_slice w h s with
        | none => none
        | some (.error e) => some (.error e)
        | some (.ok h') =>
            match w.get? h'.storage with
            | none => none
            | some a =>
                match composeChain a h'.slices with
                | none => none
                | some vDst =>
                    if vDst.shape ≠ copied.shape then
                      some (.error (.assignShapeMismatch copied.shape vDst.shape))
                    else
                      match assignViews a.data vDst copied (defaultView copied) with
                      | none => none
                      | some buf =>
                          some (.ok (w.set h'.storage { a with data := buf }))
  else
    match append_slice w h s with
    | none => none
    | some (.error e) => some (.error e)
    | some (.ok h') =>
        match w.get? h'.storage with
        | none => none
        | some a =>
            match composeChain a h'.slices with
            | none => none
            | some vDst =>
                match w.get? other.storage with
                | none => none
                | some aSrc =>
                    match composeChain aSrc other.slices with
                    | none => none
                    | some vSrc =>
                        if vDst.shape ≠ vSrc.shape then
                          some (.error (.assignShapeMismatch vSrc.shape vDst.shape))
                        else
                          match assignViews a.data vDst aSrc vSrc with
                          | none => none
                          | some buf =>
                              some (.ok (w.set h'.storage { a with data := buf }))

/-- `SlicedArcArray::from_array` (generic_pyndarray.rs:25-30): fresh
shared storage wrapping the owned array, empty slice chain. -/
def from_array (w : World α) (a : ArrayD α) : World α × Handle :=
  (w ++ [a], ⟨w.length, []⟩)

/-- `SlicedArcArray::sliced_copy` (generic_pyndarray.rs:85-89):
materialize the composed view under a read lock and wrap it in brand
new storage via `from_array`. -/
def sliced_copy (w : World α) (h : Handle) : Option (World α × Handle) :=
  (read_to_owned w h).map fun copied => from_array w copied

/-- `SlicedArcArray::length` (generic_pyndarray.rs:80-83):
`self.read(|sliced| sliced.shape().get(0).copied().unwrap_or(1))`. -/
def length (w : World α) (h : Handle) : Option Nat :=
  (composedView w h).map fun v => (v.shape.get? 0).getD 1

/-- `SlicedArcArray::ndim` (generic_pyndarray.rs:72-74). -/
def ndim (w : World α) (h : Handle) : Option Nat :=
  (composedView w h).map fun v => v.shape.length

/-- `ndarray::ArrayD::from_shape_vec` with standard strides: succeeds
exactly when the data length equals the shape's product, otherwise the
incompatible-shape error (`GenericArrayData::from_array` maps it to a
runtime error, generic_array.rs:137-156). -/
def from_shape_vec (shape : List Nat) (data : List α) :
    Except PyErr (ArrayD α) :=
  if data.length = shape.prod then .ok ⟨shape, data⟩
  else .error .incompatibleShape

/-- The construction entry point (`from_flat` at the host boundary):
`GenericArrayData::from_array` builds the owned array via
`from_shape_vec`, and the handle is created around fresh storage; on
failure no storage is allocated. -/
def from_flat (w : World α) (shape : List Nat) (data : List α) :
    Except PyErr (World α × Handle) :=
  (from_shape_vec shape data).map fun a => from_array w a

/-- `ndarray`'s `ArrayBase::get` with a `&[usize]` index: `Some`
exactly when the index has the array's dimensionality and is within
every extent. -/
def arrayGetNat (a : ArrayD α) (ix : List Nat) : Option α :=
  if ix.length = a.shape.length ∧ (ix.zip a.shape).all (fun p => p.1 < p.2)
  then a.data.get? (dotStrides ix (rowMajorStrides a.shape)).toNat
  else none

/-- `PyNdArray::getitem` (lib.rs:267-280): reads the *base* data
directly with the converted `usize` indices — the slice chain is not
applied — and maps a failed lookup to the `"Invalid index"` runtime
error. -/
def pyNdArray_getitem (w : World α) (h : Handle) (ix : List Nat) :
    Option (Except PyErr α) :=
  match w.get? h.storage with
  | none => none
  | some a =>
      match arrayGetNat a ix with
      | none => some (.error .invalidIndex)
      | some x => some (.ok x)

/-- The `length` slot of the `AsMapping` host binding (lib.rs:92-97):
it ignores the handle and unconditionally raises
`"Arrays do not support len()"`. -/
def as_mapping_length (_w : World α) (_h : Handle) : Except PyErr Nat :=
  .error .lenUnsupported

/-- `SlicedArcArray::shape` (generic_pyndarray.rs:76-78):
`self.read(|sliced| sliced.shape().to_vec())`. -/
def shape (w : World α) (h : Handle) : Option (List Nat) :=
  (composedView w h).map View.shape

/-! ### Helper lemmas -/

/-- A successful `append_slice` returns the same storage with the group
pushed onto a copy of the chain. -/
theorem append_slice_ok (w : World α) (h : Handle) (s : DynamicSlice)
    (h' : Handle) (hap : append_slice w h s = some (Except.ok h')) :
    h' = ⟨h.storage, h.slices ++ [s]⟩ := by
  unfold append_slice at hap
  split at hap
  · exact absurd hap (by simp)
  · split at hap
    · exact absurd hap (by simp)
    · simp only [Option.some.injEq, Except.ok.injEq] at hap
      exact hap.symm

/-- A `getitem` that returns a handle returns exactly the handle
produced by `append_slice`. -/
theorem getitem_inr (w : World α) (h : Handle) (s : DynamicSlice)
    (h2 : Handle) (hg : getitem w h s = some (Except.ok (Sum.inr h2))) :
    append_slice w h s = some (Except.ok h2) := by
  unfold getitem at hg
  split at hg
  · exact absurd hg (by simp)
  · exact absurd hg (by simp)
  next h' heq =>
    split at hg
    · exact absurd hg (by simp)
    · split at hg
      · exact absurd hg (by simp)
      · split at hg
        · split at hg
          · exact absurd hg (by simp)
          · simp at hg
        · simp only [Option.some.injEq, Except.ok.injEq, Sum.inr.injEq] at hg
          rw [← hg]
          exact heq

/-- `read_to_owned` consults only the handle's own storage slot. -/
theorem read_to_owned_congr (w₁ w₂ : World α) (h : Handle)
    (hw : w₁.get? h.storage = w₂.get? h.storage) :
    read_to_owned w₁ h = read_to_owned w₂ h := by
  unfold read_to_owned
  rw [hw]

/-- A successful `fill` mutates exactly the handle's own storage slot. -/
theorem fill_ok_set (w : World α) (h : Handle) (s : DynamicSlice) (x : α)
    (w₂ : World α) (hf : fill w h s x = some (Except.ok w₂)) :
    ∃ a, w₂ = w.set h.storage a := by
  unfold fill at hf
  split at hf
  · exact absurd hf (by simp)
  · exact absurd hf (by simp)
  next h' heq =>
    have hh' := append_slice_ok w h s h' heq
    split at hf
    · exact absurd hf (by simp)
    · split at hf
      · exact absurd hf (by simp)
      · split at hf
        · exact absurd hf (by simp)
        next a' hfv =>
          simp only [Option.some.injEq, Except.ok.injEq] at hf
          rw [hh'] at hf
          exact ⟨_, hf.symm⟩

/-- A successful array assignment mutates exactly the destination
handle's own storage slot. -/
theorem assign_fn_ok_set (w : World α) (h : Handle) (s : DynamicSlice)
    (o : Handle) (w₂ : World α)
    (hf : assign_fn w h s o = some (Except.ok w₂)) :
    ∃ a, w₂ = w.set h.storage a := by
  unfold assign_fn at hf
  split at hf
  · split at hf
    · exact absurd hf (by simp)
    · split at hf
      · exact absurd hf (by simp)
      · exact absurd hf (by simp)
      next h' heq =>
        have hh' := append_slice_ok w h s h' heq
        split at hf
        · exact absurd hf (by simp)
        · split at hf
          · exact absurd hf (by simp)
          · split at hf
            · exact absurd hf (by simp)
            · split at hf
              · exact absurd hf (by simp)
              next a buf hav =>
                simp only [Option.some.injEq, Except.ok.injEq] at hf
                rw [hh'] at hf
                exact ⟨_, hf.symm⟩
  · split at hf
    · exact absurd hf (by simp)
    · exact absurd hf (by simp)
    next h' heq =>
      have hh' := append_slice_ok w h s h' heq
      split at hf
      · exact absurd hf (by simp)
      · split at hf
        · exact absurd hf (by simp)
        · split at hf
          · exact absurd hf (by simp)
          · split at hf
            · exact absurd hf (by simp)
            · split at hf
              · exact absurd hf (by simp)
              · split at hf
                · exact absurd hf (by simp)
                next buf hav =>
                  simp only [Option.some.injEq, Except.ok.injEq] at hf
                  rw [hh'] at hf
                  exact ⟨_, hf.symm⟩

/-- Setting a list slot leaves every other slot's lookup unchanged. -/
theorem get?_set_ne (l : List β) (i j : Nat) (x : β) (hij : i ≠ j) :
    (l.set i x).get? j = l.get? j := by
  simp only [List.get?_eq_getElem?]
  exact List.getElem?_set_ne hij

/-- Appending one element and looking it up at the old length. -/
theorem get?_append_length (l : List β) (x : β) :
    (l ++ [x]).get? l.length = some x := by
  rw [List.get?_eq_getElem?]
  exact List.getElem?_concat_length ..

/-- A successful lookup index is within the list. -/
theorem get?_some_lt (l : List β) (i : Nat) (x : β)
    (hg : l.get? i = some x) : i < l.length := by
  rw [List.get?_eq_getElem?] at hg
  exact (List.getElem?_eq_some.mp hg).choose

/-- Unpack a successful chain composition into the storage lookup and
the fold over the chain. -/
theorem composedView_elim (w : World α) (h : Handle) (v : View)
    (hv : composedView w h = some v) :
    ∃ a, w.get? h.storage = some a ∧ composeChain a h.slices = some v := by
  unfold composedView at hv
  cases hga : w.get? h.storage with
  | none => rw [hga] at hv; exact absurd hv (by simp)
  | some a => rw [hga] at hv; exact ⟨a, rfl, by simpa using hv⟩

/-! ### Claim theorems -/

/-- C1: on a fresh 1-D handle `h` over `[1,2,3,4]`, the self-aliased
assignment `h[1:] = h[0:3]` — `get_item` first returns a sub-view
handle over the same storage, then `assign_fn` detects the aliasing by
storage identity and materializes the source into an independent
temporary before writing — leaves the buffer holding `[1,1,2,3]`,
every source element having been read at its pre-assignment value. -/
theorem self_aliased_assignment :
    getitem ([⟨[4], [1, 2, 3, 4]⟩] : World Int) ⟨0, []⟩
        [.slice 0 1 (some 3)]
      = some (Except.ok (Sum.inr ⟨0, [[.slice 0 1 (some 3)]]⟩)) ∧
    assign_fn ([⟨[4], [1, 2, 3, 4]⟩] : World Int) ⟨0, []⟩
        [.slice 1 1 none] ⟨0, [[.slice 0 1 (some 3)]]⟩
      = some (Except.ok [⟨[4], [1, 1, 2, 3]⟩]) :=
  ⟨rfl, rfl⟩

/-- C6 counterexample: appending the out-of-bounds group `[5]` to a
fresh handle over `[1,2,3]` does not succeed — both `append_slice` and
`get_item` built on it fail immediately at append time with the index
error, instead of deferring every bounds check to read/write as the
claim states. -/
theorem append_time_check_counterexample :
    append_slice ([⟨[3], [1, 2, 3]⟩] : World Int) ⟨0, []⟩ [.index 5]
      = some (Except.error (.indexError (.indexOutOfBounds 0 5 3))) ∧
    getitem ([⟨[3], [1, 2, 3]⟩] : World Int) ⟨0, []⟩ [.index 5]
      = some (Except.error (.indexError (.indexOutOfBounds 0 5 3))) :=
  ⟨rfl, rfl⟩

/-- C6 amended: appending a slice group validates the new group
against the handle's current composed view at append time (the bounds
check under a read lock, modelled from the spec): on failure
`append_slice` raises the index error immediately; on success the
group is appended to a copy of the chain, and reads/writes re-fold the
chain without further validation. -/
theorem append_slice_validates_eagerly (w : World α) (h : Handle)
    (s : DynamicSlice) (v : View) (hcv : composedView w h = some v) :
    (∀ e, bounds_check v.shape s = .error e →
        append_slice w h s = some (.error (.indexError e))) ∧
    (bounds_check v.shape s = .ok () →
        append_slice w h s = some (.ok ⟨h.storage, h.slices ++ [s]⟩)) := by
  constructor
  · intro e he
    unfold append_slice
    simp only [hcv, he]
  · intro hok
    unfold append_slice
    simp only [hcv, hok]

/-- Witness for C6's amended theorem: an in-bounds group on `[1,2,3]`
is appended successfully. -/
theorem append_slice_validates_eagerly_witness :
    append_slice ([⟨[3], [1, 2, 3]⟩] : World Int) ⟨0, []⟩
        [.slice 0 1 none]
      = some (Except.ok ⟨0, [[.slice 0 1 none]]⟩) :=
  (append_slice_validates_eagerly [⟨[3], [1, 2, 3]⟩] ⟨0, []⟩
      [.slice 0 1 none] ⟨[3], [1], 0⟩ rfl).2 rfl

/-- C4 counterexample: `PyNdArray::getitem` (lib.rs) answers the
out-of-bounds index 5 on an axis of extent 3 with the payload-free
`"Invalid index"` runtime error — not an index error reporting the
requested bound 5 and the extent 3 as the claim requires. -/
theorem oob_error_payload_counterexample :
    pyNdArray_getitem ([⟨[3], [1, 2, 3]⟩] : World Int) ⟨0, []⟩ [5]
      = some (Except.error .invalidIndex) ∧
    decide (PyErr.invalidIndex
        = .indexError (.indexOutOfBounds 0 5 3)) = false :=
  ⟨rfl, by decide⟩

/-- C4 amended: the `SlicedArcArray` path fails on an out-of-bounds
selector with the index error carrying the bounds-check payload (axis,
requested bound, extent — the check itself modelled from the spec) and
does not panic; the `PyNdArray::getitem` path (lib.rs) fails with the
plain `"Invalid index"` runtime error carrying no payload, and also
never panics or reads out of range for a live storage. -/
theorem indexing_oob_amended (w : World α) (h : Handle) (s : DynamicSlice)
    (v : View) (ix : List Nat) (a : ArrayD α)
    (hcv : composedView w h = some v) (hga : w.get? h.storage = some a) :
    (∀ e, bounds_check v.shape s = .error e →
        getitem w h s = some (.error (.indexError e))) ∧
    (∃ r, pyNdArray_getitem w h ix = some r) := by
  constructor
  · intro e he
    unfold getitem append_slice
    simp only [hcv, he]
  · unfold pyNdArray_getitem
    simp only [hga]
    cases arrayGetNat a ix
    · exact ⟨.error .invalidIndex, rfl⟩
    · exact ⟨.ok _, rfl⟩

/-- Witness for C4's amended theorem at the concrete out-of-bounds
input (index 5 on extent 3). -/
theorem indexing_oob_amended_witness :
    getitem ([⟨[3], [1, 2, 3]⟩] : World Int) ⟨0, []⟩ [.index 5]
      = some (Except.error (.indexError (.indexOutOfBounds 0 5 3))) ∧
    (∃ r, pyNdArray_getitem ([⟨[3], [1, 2, 3]⟩] : World Int)
        ⟨0, []⟩ [5] = some r) := by
  have h := indexing_oob_amended ([⟨[3], [1, 2, 3]⟩] : World Int)
      ⟨0, []⟩ [.index 5] ⟨[3], [1], 0⟩ [5] ⟨[3], [1, 2, 3]⟩ rfl rfl
  exact ⟨h.1 _ rfl, h.2⟩

/-- C2: a successful `get_item` collapses to a plain scalar exactly
when the composed view after appending the selector is
zero-dimensional (in particular, `N` integer indices on an
`N`-dimensional handle), and for any composed view of positive
dimension it returns the appended handle — never a 0-d array object. -/
theorem getitem_scalar_collapse (w : World α) (h h' : Handle)
    (s : DynamicSlice) (v : View) (r : α ⊕ Handle)
    (hap : append_slice w h s = some (Except.ok h'))
    (hv : composedView w h' = some v)
    (hg : getitem w h s = some (Except.ok r)) :
    (v.shape.length = 0 → ∃ x, r = Sum.inl x) ∧
    (v.shape.length ≠ 0 → r = Sum.inr h') := by
  obtain ⟨a, hga, hcc⟩ := composedView_elim w h' v hv
  unfold getitem at hg
  split at hg
  next heq => rw [hap] at heq; exact absurd heq (by simp)
  next e heq => rw [hap] at heq; exact absurd heq (by simp)
  next h'' heq =>
    rw [hap] at heq
    simp only [Option.some.injEq, Except.ok.injEq] at heq
    subst heq
    split at hg
    next heq2 => rw [hga] at heq2; exact absurd heq2 (by simp)
    next a' heq2 =>
      rw [hga] at heq2
      simp only [Option.some.injEq] at heq2
      subst heq2
      split at hg
      next heq3 => rw [hcc] at heq3; exact absurd heq3 (by simp)
      next v' heq3 =>
        rw [hcc] at heq3
        simp only [Option.some.injEq] at heq3
        subst heq3
        split at hg
        next hnd =>
          split at hg
          next => exact absurd hg (by simp)
          next x heq4 =>
            simp only [Option.some.injEq, Except.ok.injEq] at hg
            exact ⟨fun _ => ⟨x, hg.symm⟩, fun hne => absurd hnd hne⟩
        next hnd =>
          simp only [Option.some.injEq, Except.ok.injEq] at hg
          exact ⟨fun h0 => absurd h0 hnd, fun _ => hg.symm⟩

/-- Witness for C2: indexing the 2-D handle over `[[1,2],[3,4]]` with
the two integer indices `(0,1)` yields the plain scalar `2`. -/
theorem getitem_scalar_collapse_witness :
    ∃ x, (Sum.inl 2 : Int ⊕ Handle) = Sum.inl x :=
  (getitem_scalar_collapse ([⟨[2, 2], [1, 2, 3, 4]⟩] : World Int)
    ⟨0, []⟩ ⟨0, [[.index 0, .index 1]]⟩ [.index 0, .index 1]
    ⟨[], [], 1⟩ (Sum.inl 2) rfl rfl rfl).1 rfl

/-- C3: a `get_item` that returns a handle returns one wrapping the
very same shared storage with the selector appended (no element is
copied), and concretely, on `[10,20,30]` with selector `[0:2]`, a
subsequent `set_item` through the original handle at the overlapped
index 1 changes what the derived handle reads (from `[10,20]` to
`[10,99]`). -/
theorem getitem_shares_storage :
    (∀ (α : Type) (w : World α) (h : Handle) (s : DynamicSlice)
        (h2 : Handle), getitem w h s = some (Except.ok (Sum.inr h2)) →
          h2.storage = h.storage ∧ h2.slices = h.slices ++ [s]) ∧
    (getitem ([⟨[3], [10, 20, 30]⟩] : World Int) ⟨0, []⟩
        [.slice 0 1 (some 2)]
      = some (Except.ok (Sum.inr ⟨0, [[.slice 0 1 (some 2)]]⟩)) ∧
     read_to_owned ([⟨[3], [10, 20, 30]⟩] : World Int)
        ⟨0, [[.slice 0 1 (some 2)]]⟩ = some ⟨[2], [10, 20]⟩ ∧
     fill ([⟨[3], [10, 20, 30]⟩] : World Int) ⟨0, []⟩ [.index 1]
        (99 : Int) = some (Except.ok [⟨[3], [10, 99, 30]⟩]) ∧
     read_to_owned ([⟨[3], [10, 99, 30]⟩] : World Int)
        ⟨0, [[.slice 0 1 (some 2)]]⟩ = some ⟨[2], [10, 99]⟩) := by
  constructor
  · intro α w h s h2 hg
    have hap := getitem_inr w h s h2 hg
    have := append_slice_ok w h s h2 hap
    subst this
    exact ⟨rfl, rfl⟩
  · exact ⟨rfl, rfl, rfl, rfl⟩

/-- Witness for C3 (applies the universal part at the concrete
sliced handle). -/
theorem getitem_shares_storage_witness :
    (⟨0, [[.slice 0 1 (some 2)]]⟩ : Handle).storage
        = (⟨0, []⟩ : Handle).storage ∧
    (⟨0, [[.slice 0 1 (some 2)]]⟩ : Handle).slices
        = (⟨0, []⟩ : Handle).slices ++ [[.slice 0 1 (some 2)]] :=
  getitem_shares_storage.1 Int [⟨[3], [10, 20, 30]⟩] ⟨0, []⟩
    [.slice 0 1 (some 2)] ⟨0, [[.slice 0 1 (some 2)]]⟩ rfl

/-- C8: `get_item` never mutates the handle it is called on: the world
is untouched (the operation only takes read locks — in this embedding
it does not even produce a world) and the returned handle is built
from a copy of the chain, the original chain surviving intact as the
prefix of the new one, with the same storage reference. -/
theorem getitem_appends_to_copy (w : World α) (h : Handle)
    (s : DynamicSlice) (h2 : Handle)
    (hg : getitem w h s = some (Except.ok (Sum.inr h2))) :
    h2.storage = h.storage ∧ h2.slices = h.slices ++ [s] ∧
    read_to_owned w h = read_to_owned w h := by
  have hap := getitem_inr w h s h2 hg
  have := append_slice_ok w h s h2 hap
  subst this
  exact ⟨rfl, rfl, rfl⟩

/-- Witness for C8 at a concrete slicing call. -/
theorem getitem_appends_to_copy_witness :
    (⟨0, [[.slice 1 1 none]]⟩ : Handle).storage
        = (⟨0, []⟩ : Handle).storage ∧
    (⟨0, [[.slice 1 1 none]]⟩ : Handle).slices
        = (⟨0, []⟩ : Handle).slices ++ [[.slice 1 1 none]] ∧
    read_to_owned ([⟨[3], [1, 2, 3]⟩] : World Int) ⟨0, []⟩
        = read_to_owned ([⟨[3], [1, 2, 3]⟩] : World Int) ⟨0, []⟩ :=
  getitem_appends_to_copy ([⟨[3], [1, 2, 3]⟩] : World Int)
    ⟨0, []⟩ [.slice 1 1 none] ⟨0, [[.slice 1 1 none]]⟩ rfl

/-- C5: `from_flat` succeeds exactly when the flat data's length
equals the shape's product — on success the fresh handle's composed
shape is the requested shape; on a length mismatch it fails with the
shape error and no storage is allocated, no handle created. -/
theorem from_flat_shape_invariant (w : World α) (sh : List Nat)
    (d : List α) :
    (d.length = sh.prod →
        from_flat w sh d = .ok (w ++ [⟨sh, d⟩], ⟨w.length, []⟩) ∧
        shape (w ++ [⟨sh, d⟩]) ⟨w.length, []⟩ = some sh) ∧
    (d.length ≠ sh.prod →
        from_flat w sh d = .error .incompatibleShape) := by
  constructor
  · intro hlen
    constructor
    · unfold from_flat from_shape_vec from_array
      rw [if_pos hlen]
      rfl
    · unfold shape composedView
      rw [get?_append_length]
      rfl
  · intro hlen
    unfold from_flat from_shape_vec
    rw [if_neg hlen]
    rfl

/-- Witness for C5: shape `[2,2]` with four elements succeeds and
reports shape `[2,2]`; with three elements it fails with the shape
error. -/
theorem from_flat_shape_invariant_witness :
    (from_flat ([] : World Int) [2, 2] [1, 2, 3, 4]
        = .ok ([⟨[2, 2], [1, 2, 3, 4]⟩], ⟨0, []⟩) ∧
     shape [(⟨[2, 2], [1, 2, 3, 4]⟩ : ArrayD Int)] ⟨0, []⟩
        = some [2, 2]) ∧
    from_flat ([] : World Int) [2, 2] [1, 2, 3]
        = .error .incompatibleShape :=
  ⟨(from_flat_shape_invariant [] [2, 2] [1, 2, 3, 4]).1 (by decide),
   (from_flat_shape_invariant [] [2, 2] [1, 2, 3]).2 (by decide)⟩

/-- C9 counterexample: on a fresh 1-D handle over `[1,2,3]` the
internal `SlicedArcArray::length` would report 3, but the `len()`
actually exposed through the `AsMapping` binding (lib.rs) fails with
the `"Arrays do not support len()"` runtime error — so `len()` does
fail on a handle, contrary to the claim. -/
theorem len_always_fails_counterexample :
    as_mapping_length ([⟨[3], [1, 2, 3]⟩] : World Int) ⟨0, []⟩
      = .error .lenUnsupported ∧
    length ([⟨[3], [1, 2, 3]⟩] : World Int) ⟨0, []⟩ = some 3 :=
  ⟨rfl, rfl⟩

/-- C9 amended: `SlicedArcArray::length` returns the extent of axis 0
of the composed view, and 1 when the view is zero-dimensional,
whenever the chain composes; but the `len()` exposed through the
host's `AsMapping` binding unconditionally fails with
`"Arrays do not support len()"` on every handle. -/
theorem length_amended (w : World α) (h : Handle) (v : View)
    (hcv : composedView w h = some v) :
    (∀ n tl, v.shape = n :: tl → length w h = some n) ∧
    (v.shape = [] → length w h = some 1) ∧
    (∀ (w' : World α) (h' : Handle),
        as_mapping_length w' h' = .error .lenUnsupported) := by
  refine ⟨?_, ?_, fun _ _ => rfl⟩
  · intro n tl hsh
    unfold length
    simp [hcv, hsh]
  · intro hsh
    unfold length
    simp [hcv, hsh]

/-- Witness for C9's amended theorem on the fresh `[1,2,3]` handle. -/
theorem length_amended_witness :
    length ([⟨[3], [1, 2, 3]⟩] : World Int) ⟨0, []⟩ = some 3 ∧
    as_mapping_length ([⟨[3], [1, 2, 3]⟩] : World Int) ⟨0, []⟩
      = .error .lenUnsupported := by
  have h := length_amended ([⟨[3], [1, 2, 3]⟩] : World Int) ⟨0, []⟩
      ⟨[3], [1], 0⟩ rfl
  exact ⟨h.1 3 [] rfl, h.2.2 _ _⟩

/-- C10: `sliced_copy` materializes the composed view at the moment of
the copy into freshly allocated storage behind a new handle with an
empty chain; the copy does not alias the original, so every subsequent
write (`fill` or array assignment) through the original is invisible
through the copy, and every write through the copy is invisible
through the original. -/
theorem sliced_copy_independent (w w' : World α) (h hc : Handle)
    (hsc : sliced_copy w h = some (w', hc)) :
    hc.slices = [] ∧
    hc.storage = w.length ∧ h.storage < w.length ∧
    (∃ c, read_to_owned w h = some c ∧ w'.get? hc.storage = some c) ∧
    (∀ s x w₂, fill w' h s x = some (Except.ok w₂) →
        read_to_owned w₂ hc = read_to_owned w' hc) ∧
    (∀ s o w₂, assign_fn w' h s o = some (Except.ok w₂) →
        read_to_owned w₂ hc = read_to_owned w' hc) ∧
    (∀ s x w₂, fill w' hc s x = some (Except.ok w₂) →
        read_to_owned w₂ h = read_to_owned w' h) ∧
    (∀ s o w₂, assign_fn w' hc s o = some (Except.ok w₂) →
        read_to_owned w₂ h = read_to_owned w' h) := by
  unfold sliced_copy at hsc
  cases hro : read_to_owned w h with
  | none => rw [hro] at hsc; exact absurd hsc (by simp)
  | some c =>
      rw [hro] at hsc
      unfold from_array at hsc
      simp at hsc
      obtain ⟨hw', hhc⟩ := hsc
      subst hw'
      subst hhc
      have hlt : h.storage < w.length := by
        unfold read_to_owned at hro
        cases hga : w.get? h.storage with
        | none => rw [hga] at hro; exact absurd hro (by simp)
        | some a => exact get?_some_lt w h.storage a hga
      have hne : h.storage ≠ w.length := Nat.ne_of_lt hlt
      refine ⟨rfl, rfl, hlt,
        ⟨c, rfl, get?_append_length w c⟩, ?_, ?_, ?_, ?_⟩
      · intro s x w₂ hf
        obtain ⟨a, ha⟩ := fill_ok_set (w ++ [c]) h s x w₂ hf
        subst ha
        exact read_to_owned_congr _ _ _ (get?_set_ne _ _ _ _ hne)
      · intro s o w₂ hf
        obtain ⟨a, ha⟩ := assign_fn_ok_set (w ++ [c]) h s o w₂ hf
        subst ha
        exact read_to_owned_congr _ _ _ (get?_set_ne _ _ _ _ hne)
      · intro s x w₂ hf
        obtain ⟨a, ha⟩ := fill_ok_set (w ++ [c]) ⟨w.length, []⟩ s x w₂ hf
        subst ha
        exact read_to_owned_congr _ _ _
          (get?_set_ne _ _ _ _ fun hcon => hne hcon.symm)
      · intro s o w₂ hf
        obtain ⟨a, ha⟩ := assign_fn_ok_set (w ++ [c]) ⟨w.length, []⟩ s o w₂ hf
        subst ha
        exact read_to_owned_congr _ _ _
          (get?_set_ne _ _ _ _ fun hcon => hne hcon.symm)

/-- Witness for C10: copying the sliced handle `[1:]` of `[10,20,30]`
allocates storage 1 holding the materialized `[20,30]` with an empty
chain, distinct from the original's storage 0. -/
theorem sliced_copy_independent_witness :
    (⟨1, []⟩ : Handle).slices = [] ∧
    (⟨1, []⟩ : Handle).storage
        = ([⟨[3], [10, 20, 30]⟩] : World Int).length ∧
    (⟨0, [[.slice 1 1 none]]⟩ : Handle).storage
        < ([⟨[3], [10, 20, 30]⟩] : World Int).length ∧
    (∃ c, read_to_owned ([⟨[3], [10, 20, 30]⟩] : World Int)
          ⟨0, [[.slice 1 1 none]]⟩ = some c ∧
        ([⟨[3], [10, 20, 30]⟩, ⟨[2], [20, 30]⟩] : World Int).get? 1
          = some c) := by
  have h := sliced_copy_independent ([⟨[3], [10, 20, 30]⟩] : World Int)
      [⟨[3], [10, 20, 30]⟩, ⟨[2], [20, 30]⟩] ⟨0, [[.slice 1 1 none]]⟩
      ⟨1, []⟩ rfl
  exact ⟨h.1, h.2.1, h.2.2.1, h.2.2.2.1⟩

end RustPythonNdarray

